import Mathlib

/-!
Shallow embedding of `src/main.py` (PDF outline extractor) and proofs about
the claims of its specification.

Modelling conventions, used throughout:
* Python strings are modelled as `String` / `List Char`, restricted to their
  ASCII behaviour (`\w` = `[A-Za-z0-9_]`, `\s` = ASCII whitespace, `str.lower`
  = ASCII lowercase).  All concrete inputs used in theorems are ASCII.
* Font sizes are measured in tenths of a point (`round(size, 1)` in the source
  yields one decimal digit, so tenths are exact): Python `16.0` is `160 : Nat`.
  Decimal threshold literals of the source (`0.5`, `1.1`, `1.3`, ...) are
  modelled as exact rationals; the double-precision rounding error of these
  literals is far below the tenths granularity of the data.
* Page geometry (bounding boxes, page width/height) is modelled over `ℚ`.
* `re.sub`-style scans of the source are embedded as fuel-indexed structural
  recursions, always invoked with fuel = length of the scanned list, which is
  an upper bound on the number of scanning steps, so the fuel-exhausted branch
  is never taken; this keeps every definition kernel-reducible.
-/

namespace PdfOutline

/-! ### Character classes (ASCII model of Python's `\s`, `\w`, `str` methods) -/

/-- Python whitespace (`\s`, `str.strip`, `str.split`): ASCII subset. -/
def isPySpace (c : Char) : Bool :=
  c = ' ' || c = '\t' || c = '\n' || c = '\r' || c = '\x0b' || c = '\x0c'

/-- Python `\w` (ASCII): letters, digits, underscore. -/
def isWordChar (c : Char) : Bool :=
  c.isAlpha || c.isDigit || c = '_'

/-- ASCII letter. -/
def isLetter (c : Char) : Bool := c.isAlpha

/-- Python `str.strip()` on a char list. -/
def stripChars (l : List Char) : List Char :=
  ((l.dropWhile isPySpace).reverse.dropWhile isPySpace).reverse

/-- ASCII `str.lower()`. -/
def lowerChars (l : List Char) : List Char := l.map Char.toLower

/-- Python `str.split()` (split on whitespace runs, dropping empty pieces),
fuel-indexed scan; fuel = length suffices. -/
def splitWsF : Nat → List Char → List (List Char)
  | 0, _ => []
  | _ + 1, [] => []
  | n + 1, c :: cs =>
    if isPySpace c then splitWsF n cs
    else
      let w := c :: cs.takeWhile (fun d => !isPySpace d)
      let rest := cs.dropWhile (fun d => !isPySpace d)
      w :: splitWsF n rest

/-- Python `str.split()` of a char list. -/
def splitWs (l : List Char) : List (List Char) := splitWsF l.length l

/-- Word count of a string, as Python `len(s.split())`. -/
def wordCount (s : String) : Nat := (splitWs s.data).length

/-- Substring test (`needle in hay` in Python): is `needle` a contiguous
infix of `hay`? -/
def isInfixList (needle hay : List Char) : Bool :=
  hay.tails.any fun t => needle.isPrefixOf t

/-! ### URL detection: the source's regex `(http[s]?://\S+|www\.\S+)` -/

/-- Does the (already lowercased) char list start with a URL match
(`http://`, `https://` or `www.` followed by at least one non-space)? -/
def urlAtStart (l : List Char) : Bool :=
  (("http://".data.isPrefixOf l &&
      match l.drop 7 with | c :: _ => !isPySpace c | [] => false)) ||
  (("https://".data.isPrefixOf l &&
      match l.drop 8 with | c :: _ => !isPySpace c | [] => false)) ||
  (("www.".data.isPrefixOf l &&
      match l.drop 4 with | c :: _ => !isPySpace c | [] => false))

/-- `re.search(r'(http[s]?://\S+|www\.\S+)', s, re.IGNORECASE)` as a Bool. -/
def searchURL (s : String) : Bool :=
  (lowerChars s.data).tails.any urlAtStart

/-- `re.match(r'^(http[s]?://\S+|www\.\S+)', s, re.IGNORECASE)` as a Bool. -/
def matchURL (s : String) : Bool :=
  urlAtStart (lowerChars s.data)

/-! ### Full-match helpers for the small regexes of the source -/

/-- `re.fullmatch(r'^\s*\d+\s*$', s)`: optional whitespace, at least one
digit, optional whitespace. -/
def fullmatchWsDigits (s : String) : Bool :=
  let m := s.data.dropWhile isPySpace
  let ds := m.takeWhile Char.isDigit
  let rest := m.dropWhile Char.isDigit
  !ds.isEmpty && rest.all isPySpace

/-- `re.fullmatch(r'[-=_]{3,}', s)`: a separator run. -/
def fullmatchSeparators (s : String) : Bool :=
  3 ≤ s.data.length && s.data.all (fun c => c = '-' || c = '=' || c = '_')

/-- `re.fullmatch(r'^\s*[A-Za-z]\s*$', s)`. -/
def fullmatchWsSingleLetter (s : String) : Bool :=
  match s.data.dropWhile isPySpace with
  | c :: rest => isLetter c && rest.all isPySpace
  | [] => false

/-- `re.fullmatch(r'^\s*[IXVLDCM]+\s*$', s)` (roman numerals). -/
def fullmatchWsRoman (s : String) : Bool :=
  let isRoman : Char → Bool := fun c =>
    c = 'I' || c = 'X' || c = 'V' || c = 'L' || c = 'D' || c = 'C' || c = 'M'
  let m := s.data.dropWhile isPySpace
  let rs := m.takeWhile isRoman
  let rest := m.dropWhile isRoman
  !rs.isEmpty && rest.all isPySpace

/-- Parser for `(\.\d+)*\s*$`-like tails: after an initial digit run, zero or
more `.` + digit-run groups, then only whitespace.  Fuel-indexed. -/
def dotDigitsThenWsF : Nat → List Char → Bool
  | 0, _ => false
  | _ + 1, [] => true
  | n + 1, c :: cs =>
    if c = '.' then
      let ds := cs.takeWhile Char.isDigit
      let rest := cs.dropWhile Char.isDigit
      !ds.isEmpty && dotDigitsThenWsF n rest
    else
      (c :: cs).all isPySpace

/-- `re.fullmatch(r'^\s*(\d+(\.\d+)*|[A-Z])\s*$', s)`. -/
def fullmatchNumberingOrCap (s : String) : Bool :=
  let m := s.data.dropWhile isPySpace
  (match m with
   | c :: rest => c.isUpper && rest.all isPySpace
   | [] => false) ||
  (let ds := m.takeWhile Char.isDigit
   let rest := m.dropWhile Char.isDigit
   !ds.isEmpty && dotDigitsThenWsF rest.length rest)

/-- `re.fullmatch(r'^\d+\.?$|^\([a-zA-Z]\)$|^\([0-9]+\)$|^[a-zA-Z]\.$', s)`
(the bare-enumerator filter of `is_likely_heading`). -/
def fullmatchEnumerator (s : String) : Bool :=
  let l := s.data
  -- ^\d+\.?$
  (let ds := l.takeWhile Char.isDigit
   !ds.isEmpty && (l.drop ds.length = [] || l.drop ds.length = ['.'])) ||
  -- ^\([a-zA-Z]\)$  and  ^\([0-9]+\)$
  (match l with
   | '(' :: rest =>
     (match rest with
      | c :: [')'] => isLetter c
      | _ => false) ||
     (let ds := rest.takeWhile Char.isDigit
      !ds.isEmpty && rest.drop ds.length = [')'])
   | _ => false) ||
  -- ^[a-zA-Z]\.$
  (match l with
   | c :: ['.'] => isLetter c
   | _ => false)

/-- `re.match(r'^\s*(\d+(\.\d+)*|[A-Z])\.\s*.*', s)`: by regex backtracking
this prefix-match succeeds iff after optional whitespace the text starts with
a single uppercase letter followed by `.`, or with a digit run followed
immediately by `.`. -/
def matchNumberedDotPrefix (s : String) : Bool :=
  let m := s.data.dropWhile isPySpace
  (match m with
   | c :: '.' :: _ => c.isUpper
   | _ => false) ||
  (let ds := m.takeWhile Char.isDigit
   !ds.isEmpty && (match m.dropWhile Char.isDigit with
     | '.' :: _ => true
     | _ => false))

/-- Group parser for `^\s*(\d+(\.\d+)*)\s+.*`: after the leading digit run,
repeatedly consume `.`+digits; succeed when at least one whitespace follows
the digits consumed so far.  Fuel-indexed. -/
def numberedSpaceTailF : Nat → List Char → Bool
  | 0, _ => false
  | _ + 1, [] => false
  | n + 1, c :: cs =>
    if isPySpace c then true
    else if c = '.' then
      let ds := cs.takeWhile Char.isDigit
      let rest := cs.dropWhile Char.isDigit
      !ds.isEmpty && numberedSpaceTailF n rest
    else false

/-- `re.match(r'^\s*(\d+(\.\d+)*)\s+.*', s)` (numbered-heading prefix). -/
def matchNumberedSpacePrefix (s : String) : Bool :=
  let m := s.data.dropWhile isPySpace
  let ds := m.takeWhile Char.isDigit
  let rest := m.dropWhile Char.isDigit
  !ds.isEmpty && numberedSpaceTailF rest.length rest

/-! ### `clean_text` (src/main.py lines 8-36)

Each `re.sub` pass is embedded as a left-to-right scan with the same
leftmost-match, consume-the-match semantics as `re.sub`. -/

/-- Pass `re.sub(r'\s{2,}', ' ', s)`: whitespace runs of length ≥ 2 collapse
to a single space; a lone whitespace char is kept as-is. -/
def collapseWsF : Nat → List Char → List Char
  | 0, l => l
  | _ + 1, [] => []
  | n + 1, c :: cs =>
    if isPySpace c then
      let run := cs.takeWhile isPySpace
      if run.isEmpty then c :: collapseWsF n cs
      else ' ' :: collapseWsF n (cs.dropWhile isPySpace)
    else c :: collapseWsF n cs

/-- Pass `re.sub(r'(\w)-\s*(\w)', r'\1\2', s)` (re-join hyphenated words). -/
def hyphenFixF : Nat → List Char → List Char
  | 0, l => l
  | _ + 1, [] => []
  | n + 1, c :: cs =>
    if isWordChar c then
      match cs with
      | '-' :: cs2 =>
        (match cs2.dropWhile isPySpace with
         | d :: cs3 =>
           if isWordChar d then c :: d :: hyphenFixF n cs3
           else c :: hyphenFixF n cs
         | [] => c :: hyphenFixF n cs)
      | _ => c :: hyphenFixF n cs
    else c :: hyphenFixF n cs

/-- Pass `re.sub(r'\b([A-Z])\s+([A-Za-z]+)\b', r'\1\2', s)` (re-join a
detached single capital).  The scan carries the previous original character
to decide the leading `\b`; the trailing `\b` holds iff the character after
the maximal letter run is not a word character (backtracking inside the
letter run can never produce a boundary). -/
def capsRejoinF : Nat → Option Char → List Char → List Char
  | 0, _, l => l
  | _ + 1, _, [] => []
  | n + 1, prev, c :: cs =>
    let boundary := match prev with
      | none => true
      | some p => !isWordChar p
    if boundary && c.isUpper then
      let ws := cs.takeWhile isPySpace
      if ws.isEmpty then c :: capsRejoinF n (some c) cs
      else
        let afterWs := cs.dropWhile isPySpace
        let letters := afterWs.takeWhile isLetter
        let rest := afterWs.dropWhile isLetter
        let tailBoundary := match rest with
          | [] => true
          | r :: _ => !isWordChar r
        if !letters.isEmpty && tailBoundary then
          c :: letters ++ capsRejoinF n (letters.getLast?) rest
        else c :: capsRejoinF n (some c) cs
    else c :: capsRejoinF n (some c) cs

/-- Pass `re.sub(r'([a-z])([A-Z][a-z]+)', r'\1 \2', s)` (insert a missing
space in concatenated words). -/
def concatSpaceF : Nat → List Char → List Char
  | 0, l => l
  | _ + 1, [] => []
  | n + 1, c :: cs =>
    if c.isLower then
      match cs with
      | u :: cs2 =>
        if u.isUpper then
          let ls := cs2.takeWhile Char.isLower
          if ls.isEmpty then c :: concatSpaceF n cs
          else c :: ' ' :: u :: ls ++ concatSpaceF n (cs2.dropWhile Char.isLower)
        else c :: concatSpaceF n cs
      | [] => [c]
    else c :: concatSpaceF n cs

/-- Pass `re.sub(r'([.!?])([A-Z])', r'\1 \2', s)`. -/
def punctSpaceF : Nat → List Char → List Char
  | 0, l => l
  | _ + 1, [] => []
  | n + 1, c :: cs =>
    if c = '.' || c = '!' || c = '?' then
      match cs with
      | u :: cs2 =>
        if u.isUpper then c :: ' ' :: u :: punctSpaceF n cs2
        else c :: punctSpaceF n cs
      | [] => [c]
    else c :: punctSpaceF n cs

/-- Run-length encoding helper (accumulator-structural). -/
def rleAux : List Char → Char → Nat → List (Char × Nat)
  | [], c, k => [(c, k)]
  | d :: ds, c, k =>
    if d = c then rleAux ds c (k + 1) else (c, k) :: rleAux ds d 1

/-- Run-length encoding of a char list. -/
def rle : List Char → List (Char × Nat)
  | [] => []
  | c :: cs => rleAux cs c 1

/-- Pass `re.sub(r'(.)\1{2,}', r'\1\1', s)`: runs of ≥ 3 identical characters
collapse to 2 (`.` does not match a newline, so newline runs are kept). -/
def collapseReps (l : List Char) : List Char :=
  (rle l).flatMap fun p =>
    if p.1 ≠ '\n' ∧ 3 ≤ p.2 then [p.1, p.1] else List.replicate p.2 p.1

/-- Pass `re.sub(r'\s+\d+$', '', s)`: drop one trailing
whitespace-then-digits run (the input contains no newline at this point of
the pipeline, so `$` is the end of the string). -/
def dropTrailingPageNo (l : List Char) : List Char :=
  let r := l.reverse
  let ds := r.takeWhile Char.isDigit
  if ds.isEmpty then l
  else
    let r2 := r.dropWhile Char.isDigit
    let ws := r2.takeWhile isPySpace
    if ws.isEmpty then l
    else (r2.dropWhile isPySpace).reverse

/-- `clean_text` (src/main.py lines 8-36) on a char list. -/
def cleanList (l : List Char) : List Char :=
  let t1 := stripChars l
  let t2 := collapseWsF t1.length t1
  let t3 := hyphenFixF t2.length t2
  let t4 := t3.map fun c => if c = '\n' then ' ' else c
  let t5 := capsRejoinF t4.length none t4
  let t6 := concatSpaceF t5.length t5
  let t7 := punctSpaceF t6.length t6
  let t8 := collapseReps t7
  let t9 := dropTrailingPageNo t8
  stripChars t9

/-- `clean_text` (src/main.py lines 8-36). -/
def cleanText (s : String) : String := ⟨cleanList s.data⟩

example : cleanText "foo 12 34" = "foo 12" := by decide
example : cleanText "foo 12" = "foo" := by decide
example : cleanText "Y ou" = "You" := by decide
example : cleanText "aProposal" = "a Proposal" := by decide
example : cleanText "Reeeequest" = "Reequest" := by decide
example : cleanText "hi.There" = "hi. There" := by decide
example : cleanText "  a   b " = "a b" := by decide
example : cleanText "a-b-c" = "ab-c" := by decide
example : cleanText "T HERE now" = "THERE now" := by decide
example : cleanText "A B C" = "AB C" := by decide
example : cleanText "x.Yz" = "x. Yz" := by decide
example : cleanText "a K bc" = "a Kbc" := by decide
example : cleanText "ab- cd" = "abcd" := by decide
example : cleanText "M 5x" = "M 5x" := by decide
example : cleanText "a\tb" = "a\tb" := by decide
example : cleanText "a \t b" = "a b" := by decide
example : cleanText "Chapter 1" = "Chapter" := by decide
example : cleanText "1. Intro 7" = "1. Intro" := by decide
example : cleanText "AAAA" = "AA" := by decide
example : cleanText "aaa bbb 111" = "aa bb" := by decide

/-! ### `is_garbled_text` (src/main.py lines 39-86) -/

/-- Nat distance (`abs` of the difference of two naturals). -/
def natDist (a b : Nat) : Nat := if a ≤ b then b - a else a - b

/-- Python `abs` on rationals (kept as an explicit conditional so concrete
instances evaluate by kernel reduction). -/
def ratAbs (q : ℚ) : ℚ := if q < 0 then -q else q

/-- Python `min` on rationals (explicit conditional, see `ratAbs`). -/
def qMin (a b : ℚ) : ℚ := if a ≤ b then a else b

/-- Python `max` on rationals (explicit conditional, see `ratAbs`). -/
def qMax (a b : ℚ) : ℚ := if a ≤ b then b else a

/-- Python `str.count(sub)` (non-overlapping occurrences, left to right),
fuel-indexed; fuel = length of the haystack suffices (`sub` is nonempty at
every call site). -/
def countSubF (sub : List Char) : Nat → List Char → Nat
  | 0, _ => 0
  | _ + 1, [] => 0
  | n + 1, c :: cs =>
    if sub.isPrefixOf (c :: cs) then 1 + countSubF sub n ((c :: cs).drop sub.length)
    else countSubF sub n cs

/-- Python `str.count(sub)` for nonempty `sub`. -/
def countSub (sub l : List Char) : Nat := countSubF sub l.length l

/-- The closed set of common short words of `is_garbled_text`. -/
def commonShortWords : List String :=
  ["to", "of", "in", "on", "at", "is", "an", "a", "or", "and", "for", "by",
   "as", "it", "be", "do", "not", "we", "he", "she", "they", "you", "if",
   "but", "can", "may", "will", "are", "was", "were", "has", "had", "have",
   "this", "that", "with", "from", "into", "out", "up", "down", "then",
   "than", "also", "only", "very", "much"]

/-- `is_garbled_text` (src/main.py lines 39-86).  Ratios `0.5` are exact in
binary floating point; `0.6` is modelled as the exact rational `3/5`. -/
def isGarbledText (s : String) : Bool :=
  if s.data.isEmpty then true
  else
    -- cleaned_text_for_check = text.replace(" ", "")
    let cleaned := s.data.filter (fun c => c ≠ ' ')
    if cleaned.isEmpty then true
    else
      let alnum := (cleaned.filter Char.isAlphanum).length
      let total := cleaned.length
      if 2 * alnum < total then true
      else
        let words := splitWs s.data
        let mostCommon := words.foldl (fun m w => max m (words.count w)) 0
        if words.length > 5 && 2 * mostCommon > words.length then true
        else
          let shortWords := words.filter fun w =>
            w.length ≤ 3 && !(commonShortWords.any fun c => c.data = lowerChars w)
          if words.length > 10 && 2 * shortWords.length > words.length then true
          else if cleaned.length > 10 then
            -- four consecutive identical characters
            if (rle cleaned).any (fun p => 4 ≤ p.2) then true
            else
              -- repeating substrings of length 2-4 covering > 60% of the text
              ([2, 3, 4].any fun subLen =>
                2 * subLen ≤ cleaned.length &&
                  ((List.range (cleaned.length - subLen)).any fun i =>
                    let sub := (cleaned.drop i).take subLen
                    3 * cleaned.length < 5 * (countSub sub cleaned * subLen)))
          else false

example : isGarbledText "" = true := by decide
example : isGarbledText "Introduction" = false := by decide
example : isGarbledText "@@@@ $$ %%!!" = true := by decide
example : isGarbledText "ababababababab" = true := by decide
example : isGarbledText "aaaab bbbcccd dd" = true := by decide

/-! ### `filter_title_candidate` (src/main.py lines 89-137) -/

/-- The all-caps titles whitelisted by the single-page filter. -/
def allCapsWhitelist : List String :=
  ["TABLE OF CONTENTS", "CONTENTS", "INTRODUCTION", "SYLLABUS"]

/-- Python `str.isupper()` (ASCII model): at least one cased character and
no lowercase character. -/
def pyIsUpper (w : List Char) : Bool :=
  w.any Char.isAlpha && w.all (fun c => !c.isLower)

/-- The invitation/address-flavoured words of the single-page filter. -/
def invitationWords : List String :=
  ["you're", "to", "a", "for", "date", "time", "rsvp", "invited", "park"]

/-- `filter_title_candidate` (src/main.py lines 89-137): returns the
candidate unchanged when it is acceptable as a title, `""` otherwise. -/
def filterTitleCandidate (candidate : String) (docPageCount : Nat) : String :=
  if candidate.data.isEmpty then ""
  else if fullmatchSeparators candidate || fullmatchWsDigits candidate ||
      isGarbledText candidate || matchURL candidate ||
      fullmatchNumberingOrCap candidate then ""
  else
    let words := splitWs candidate.data
    if docPageCount = 1 &&
        (candidate.data.length ≤ 20 &&
          (match candidate.data.getLast? with | some c => c = ':' | none => false)) then ""
    else if docPageCount = 1 &&
        (0 < words.length && words.length ≤ 3 && words.all pyIsUpper &&
          !isGarbledText candidate &&
          !(allCapsWhitelist.any fun w => w = candidate)) then ""
    else if docPageCount = 1 &&
        (candidate.data.length ≤ 25 && words.length ≤ 4 &&
          (words.any fun w => invitationWords.any fun iw => iw.data = lowerChars w)) then ""
    else if docPageCount = 1 &&
        ((candidate.data.any Char.isDigit) &&
          (candidate.data.length < 30 ||
            !(words.any fun w => w.all Char.isAlpha && 4 < w.length))) then ""
    else if docPageCount = 1 &&
        ((match candidate.data.head? with | some c => c = '(' | none => false) &&
          (match candidate.data.getLast? with | some c => c = ')' | none => false)) then ""
    else if docPageCount > 1 && candidate.data.length < 7 then ""
    else candidate

example : filterTitleCandidate "Understanding AI Systems" 3 = "Understanding AI Systems" := by decide
example : filterTitleCandidate "-----" 3 = "" := by decide
example : filterTitleCandidate " 42 " 3 = "" := by decide
example : filterTitleCandidate "ADDRESS:" 1 = "" := by decide
example : filterTitleCandidate "INTRODUCTION" 1 = "INTRODUCTION" := by decide
example : filterTitleCandidate "HOPE PARK" 1 = "" := by decide
example : filterTitleCandidate "short" 2 = "" := by decide

/-! ### Data model

The shapes mirror what the source reads from the PyMuPDF page dictionary:
spans with text, rounded font size (tenths of a point), font name and
bounding box, grouped into lines, grouped into typed blocks, grouped into
pages.  A document additionally exposes the optional metadata title and the
built-in bookmark/table-of-contents list (which `fitz` offers via
`get_toc`); the source never reads the latter. -/

/-- Axis-aligned bounding box `(x0, y0, x1, y1)` in page coordinates. -/
structure BBox where
  x0 : ℚ
  y0 : ℚ
  x1 : ℚ
  y1 : ℚ
deriving DecidableEq

/-- A text span of the page dictionary. `size` is the rounded font size in
tenths of a point. -/
structure Span where
  text : String
  size : Nat
  font : String
  bbox : BBox
deriving DecidableEq

/-- A line of a text block (a row of spans with its bounding box). -/
structure BLine where
  spans : List Span
  bbox : BBox
deriving DecidableEq

/-- A page-dictionary block; the source only processes blocks with
`b['type'] == 0` (text blocks). -/
structure Block where
  btype : Nat
  lines : List BLine
deriving DecidableEq

/-- A page: dimensions and blocks. -/
structure Page where
  width : ℚ
  height : ℚ
  blocks : List Block
deriving DecidableEq

/-- A built-in bookmark/table-of-contents entry `(level, text, page)` as the
external reader exposes it (level ≥ 1, page 1-indexed). -/
structure TocEntry where
  level : Nat
  text : String
  page : Nat
deriving DecidableEq

/-- A document as read by `extract_outline_from_pdf`: pages, the optional
metadata title, and the built-in bookmark list exposed by the reader. -/
structure Document where
  pages : List Page
  metaTitle : Option String
  toc : List TocEntry
deriving DecidableEq

/-- A final outline entry.  The source emits the level as the string
`"H" + digit`; it is modelled by its numeric value (1 for `"H1"`, ...). -/
structure Entry where
  level : Nat
  text : String
  page : Nat
deriving DecidableEq

/-- The per-document result record `{"title": ..., "outline": [...]}`. -/
structure ExtractResult where
  title : String
  outline : List Entry
deriving DecidableEq

/-! ### Stable sorting (Python `list.sort` is stable) -/

/-- Stable insertion: place `x` before the first element `y` with
`¬ le x y`; ties keep the existing element first only when `le x y` is
false, so an element inserted from the left of the original list lands
before every tie. -/
def insertLE {α : Type} (le : α → α → Bool) (x : α) : List α → List α
  | [] => [x]
  | y :: ys => if le x y then x :: y :: ys else y :: insertLE le x ys

/-- Stable insertion sort with respect to a total preorder `le`
(`le a b = true` when `key a ≤ key b`); equal keys keep list order, like
Python's stable `list.sort`. -/
def stableSort {α : Type} (le : α → α → Bool) : List α → List α
  | [] => []
  | x :: xs => insertLE le x (stableSort le xs)

example : stableSort (fun a b => a.1 ≤ b.1)
    [(2, 'a'), (1, 'b'), (2, 'c'), (1, 'd')] =
    [(1, 'b'), (1, 'd'), (2, 'a'), (2, 'c')] := by decide

/-! ### `is_likely_heading` (src/main.py lines 140-241) -/

/-- The bold-sounding font-name test
`any(f in font_name.lower() for f in ['bold', 'bd', 'black', 'heavy'])`. -/
def boldSoundingFont (fontName : String) : Bool :=
  let f := lowerChars fontName.data
  ["bold", "bd", "black", "heavy"].any fun w => isInfixList w.data f

/-- The caller-side bold flag
`"bold" in font.lower() or "black" in font.lower() or "heavy" in font.lower()`
(src/main.py lines 300 and 444). -/
def boldFlagOfFont (fontName : String) : Bool :=
  let f := lowerChars fontName.data
  ["bold", "black", "heavy"].any fun w => isInfixList w.data f

/-- Case-insensitive substring check, as
`re.search(re.escape(pattern), text, re.IGNORECASE)`. -/
def containsCI (pattern text : String) : Bool :=
  isInfixList (lowerChars pattern.data) (lowerChars text.data)

/-- `is_likely_heading` (src/main.py lines 140-241).  Font sizes are in
tenths of a point, so the source's float comparisons against
`avg * 1.1/1.2/1.3/1.5` become integer comparisons after scaling by 10;
`abs(font_size - avg_body_font_size) < 0.5` becomes a distance below 5
tenths.  `page_num` is a parameter of the source function that its body
never reads; it is kept for fidelity. -/
def isLikelyHeading (text : String) (fontSize : Nat) (isBold : Bool)
    (pageWidth : ℚ) (spanBBox : BBox) (avgBody : Nat)
    (patterns : List String) (fontName : String) (_pageNum : Nat)
    (docPageCount : Nat) : Bool :=
  let cleaned := cleanText text
  -- 1. basic length and content filters
  if cleaned.data.isEmpty || cleaned.data.length < 3 then false
  else if fullmatchEnumerator cleaned then false
  else if fullmatchWsDigits cleaned || fullmatchWsSingleLetter cleaned ||
      fullmatchWsRoman cleaned then false
  else if fullmatchSeparators cleaned then false
  else if patterns.any (fun p => containsCI p cleaned) then false
  else if searchURL cleaned then false
  -- form-like numbered items close to body size
  else if matchNumberedDotPrefix cleaned &&
      decide (spanBBox.x1 - spanBBox.x0 < pageWidth * (1/2)) &&
      decide (spanBBox.x0 < pageWidth * (1/5)) &&
      (avgBody ≠ 0 && natDist fontSize avgBody < 5) then false
  -- short, non-bold, not much larger than body text
  else if wordCount cleaned ≤ 3 && !isBold &&
      (avgBody ≠ 0 && 10 * fontSize < 12 * avgBody) then false
  -- single-page decorative large centered text
  else if docPageCount = 1 && 15 * avgBody < 10 * fontSize &&
      decide (2/5 < (spanBBox.x1 - spanBBox.x0) / pageWidth) &&
      decide (ratAbs ((spanBBox.x0 + spanBBox.x1) / 2 - pageWidth / 2) < pageWidth * (1/5)) &&
      !matchNumberedSpacePrefix cleaned then false
  -- columnar/sidebar text
  else if decide (pageWidth > 500) &&
      decide ((spanBBox.x1 - spanBBox.x0) / pageWidth < 9/20) &&
      decide (pageWidth * (1/5) < spanBBox.x0) &&
      (!isBold && (avgBody ≠ 0 && 10 * fontSize ≤ 13 * avgBody)) then false
  -- numbered and bold headings accepted immediately
  else if matchNumberedSpacePrefix cleaned && (isBold || boldSoundingFont fontName) then true
  -- must be at least 10% larger than body text
  else if avgBody ≠ 0 && 10 * fontSize < 11 * avgBody then false
  -- bold and reasonably sized
  else if (isBold || boldSoundingFont fontName) && 11 * avgBody ≤ 10 * fontSize then
    if 8 < wordCount cleaned && 10 * fontSize ≤ 13 * avgBody &&
        decide (spanBBox.x0 < pageWidth * (1/10)) then false
    else true
  -- significantly larger than body text and reasonably positioned
  else if 13 * avgBody < 10 * fontSize then
    if decide ((spanBBox.x1 - spanBBox.x0) / pageWidth < 9/10) &&
        decide (ratAbs ((spanBBox.x0 + spanBBox.x1) / 2 - pageWidth / 2) < pageWidth * (3/10)) then true
    else if decide (spanBBox.x0 < pageWidth * (3/20)) then true
    else false
  else false

/-! ### Line reconstruction from a source row (src/main.py lines 429-446)

For every line of the page dictionary the source sorts the row's spans by
`x0`, joins all their texts with single spaces into one candidate line, and
takes the line's font size, bold flag and font name from the first (leftmost)
span; the bounding box is the union.  Rows whose cleaned text is empty or
garbled yield no candidate. -/

/-- Left-to-right order of a row's spans (`key=lambda x: x["bbox"][0]`). -/
def spanLE (s1 s2 : Span) : Bool := decide (s1.bbox.x0 ≤ s2.bbox.x0)

/-- `" ".join(...)` over span texts. -/
def joinSpaceTexts : List Span → String
  | [] => ""
  | [s] => s.text
  | s :: rest => s.text ++ " " ++ joinSpaceTexts rest

/-- Union bounding box of a nonempty span list given as head and tail. -/
def unionBBox (s0 : Span) (rest : List Span) : BBox :=
  ⟨(rest.map (fun s => s.bbox.x0)).foldl qMin s0.bbox.x0,
   (rest.map (fun s => s.bbox.y0)).foldl qMin s0.bbox.y0,
   (rest.map (fun s => s.bbox.x1)).foldl qMax s0.bbox.x1,
   (rest.map (fun s => s.bbox.y1)).foldl qMax s0.bbox.y1⟩

/-- A logical line reconstructed from one source row. -/
structure RowLine where
  text : String
  cleanedText : String
  size : Nat
  isBold : Bool
  bbox : BBox
  font : String
deriving DecidableEq

/-- The source's row-to-line reconstruction (src/main.py lines 432-446):
sort by horizontal position, join all texts with spaces, take size/bold/font
from the leftmost span.  Returns `none` for rows whose cleaned joined text is
empty or garbled (they are skipped by the heading loop). -/
def reconstructRow (spans : List Span) : Option RowLine :=
  let sorted := stableSort spanLE spans
  let fullText := joinSpaceTexts sorted
  let cleaned := cleanText fullText
  if cleaned.data.isEmpty then none
  else if isGarbledText cleaned then none
  else
    match sorted with
    | [] => none
    | s0 :: rest =>
      some ⟨fullText, cleaned, s0.size, boldFlagOfFont s0.font,
            unionBBox s0 rest, s0.font⟩

/-- Modelled from the spec (§4.1), for comparison with `reconstructRow`: the
spec's contract merges two adjacent fragments into one logical line iff the
horizontal gap is below ≈5 layout units, the rounded font sizes match
exactly, the style flags match exactly, and the vertical displacement of the
top edges is below ≈1 unit. -/
def specMergeCond (s1 s2 : Span) : Bool :=
  decide (s2.bbox.x0 - s1.bbox.x1 < 5) &&
  decide (s1.size = s2.size) &&
  decide (boldFlagOfFont s1.font = boldFlagOfFont s2.font) &&
  decide (ratAbs (s2.bbox.y0 - s1.bbox.y0) < 1)

/-! ### Header/footer detection pre-pass (src/main.py lines 254-282) -/

/-- Ordered occurrence counter (Python `defaultdict(int)` retains first
insertion order). -/
def bumpCounter {α : Type} [DecidableEq α] (acc : List (α × Nat)) (k : α) :
    List (α × Nat) :=
  if acc.any (fun p => decide (p.1 = k)) then
    acc.map fun p => if p.1 = k then (p.1, p.2 + 1) else p
  else acc ++ [(k, 1)]

/-- The header/footer pre-pass: count cleaned line texts appearing in the
top 10% or bottom 10% of the first page's height; texts on more than half of
the pages become suppression patterns. -/
def headerFooterPatterns (pages : List Page) : List String :=
  match pages with
  | [] => []
  | p0 :: _ =>
    let top := p0.height * (1/10)
    let bottom := p0.height * (9/10)
    let counter := pages.foldl (fun acc page =>
      page.blocks.foldl (fun acc b =>
        if b.btype = 0 then
          b.lines.foldl (fun acc ln =>
            let lineText := cleanText (joinSpaceTexts ln.spans)
            if !lineText.data.isEmpty && 3 < lineText.data.length &&
                !fullmatchWsDigits lineText && !isGarbledText lineText &&
                !fullmatchSeparators lineText && !searchURL lineText then
              if decide (ln.bbox.y0 < top) || decide (ln.bbox.y0 > bottom) then
                bumpCounter acc lineText
              else acc
            else acc) acc
        else acc) acc) ([] : List (String × Nat))
    (counter.filter fun p => pages.length < 2 * p.2).map Prod.fst

/-! ### Body font size statistics (src/main.py lines 389-420) -/

/-- Font-size histogram over every span of every text block, in
first-encounter order (sizes in tenths of a point). -/
def fontSizeCounter (pages : List Page) : List (Nat × Nat) :=
  pages.foldl (fun acc page =>
    page.blocks.foldl (fun acc b =>
      if b.btype = 0 then
        b.lines.foldl (fun acc ln =>
          ln.spans.foldl (fun acc s => bumpCounter acc s.size) acc) acc
      else acc) acc) []

/-- First key attaining the maximal count (`max(d, key=d.get)` returns the
first maximal key in insertion order); `0` for an empty histogram. -/
def argmaxFirst (l : List (Nat × Nat)) : Nat :=
  let m := (l.map Prod.snd).foldl max 0
  match l.find? (fun p => p.2 = m) with
  | some p => p.1
  | none => 0

/-- `avg_body_font_size` (src/main.py lines 400-420): most frequent size in
9–20pt, else in 8–30pt, else overall; if still zero, the first sample span's
size of the first page, defaulting to 10pt.  (The source would raise on a
line with zero spans; the page reader guarantees at least one span per line,
and the embedding uses the 10pt default on that unreachable shape.) -/
def avgBodyFontSize (pages : List Page) : Nat :=
  let counts := fontSizeCounter pages
  let avg0 :=
    if counts.isEmpty then 0
    else
      let f1 := counts.filter fun p => 90 ≤ p.1 && p.1 < 200
      if !f1.isEmpty then argmaxFirst f1
      else
        let f2 := counts.filter fun p => 80 ≤ p.1 && p.1 < 300
        if !f2.isEmpty then argmaxFirst f2
        else argmaxFirst counts
  if avg0 = 0 && !pages.isEmpty then
    match pages with
    | [] => avg0
    | p0 :: _ =>
      match p0.blocks.find? (fun b => b.btype = 0 && !b.lines.isEmpty) with
      | some b =>
        match b.lines with
        | ln :: _ =>
          match ln.spans with
          | s :: _ => s.size
          | [] => 100
        | [] => 100
      | none => 100
  else avg0

/-! ### Heading collection (src/main.py lines 423-457) -/

/-- A potential heading as collected by the source
(`potential_headings_with_sizes` entries). -/
structure Heading where
  text : String
  size : Nat
  isBold : Bool
  page : Nat
  bbox : BBox
  font : String
deriving DecidableEq

/-- Collect the potential headings of a document: every reconstructed row
line accepted by `is_likely_heading`, in document order. -/
def collectHeadings (pages : List Page) (avgBody : Nat) (patterns : List String) :
    List Heading :=
  pages.enum.foldl (fun acc pp =>
    let pageNum := pp.1
    let page := pp.2
    page.blocks.foldl (fun acc b =>
      if b.btype = 0 then
        b.lines.foldl (fun acc ln =>
          match reconstructRow ln.spans with
          | none => acc
          | some row =>
            if isLikelyHeading row.cleanedText row.size row.isBold page.width
                row.bbox avgBody patterns row.font pageNum pages.length then
              acc ++ [⟨row.cleanedText, row.size, row.isBold, pageNum, row.bbox, row.font⟩]
            else acc) acc
      else acc) acc) []

/-- Reading order of potential headings
(`key=lambda x: (x["page"], x["bbox"][1], -x["size"])`, src/main.py
line 460). -/
def headingLE (a b : Heading) : Bool :=
  decide (a.page < b.page) ||
  (decide (a.page = b.page) &&
    (decide (a.bbox.y0 < b.bbox.y0) ||
      (decide (a.bbox.y0 = b.bbox.y0) && decide (b.size ≤ a.size))))

/-! ### Heading level map (src/main.py lines 463-497) -/

/-- First-occurrence deduplication of a size list. -/
def dedupFirst (l : List Nat) : List Nat :=
  l.foldl (fun acc x => if x ∈ acc then acc else acc ++ [x]) []

/-- The initial assignments of `h_level_map` (src/main.py lines 470-475):
skip the largest distinct size, assign the next three to levels 1, 2, 3. -/
def hLevelBase : List Nat → List (Nat × Nat)
  | _ :: s1 :: s2 :: s3 :: _ => [(s1, 1), (s2, 2), (s3, 3)]
  | [_, s1, s2] => [(s1, 1), (s2, 2)]
  | [_, s1] => [(s1, 1)]
  | _ => []

/-- One iteration of the fallthrough loop of `h_level_map` (src/main.py
lines 481-497): an unmapped size takes the level of the first defined size
`d` (defined sizes scanned ascending) with `size >= d - 0.5`; a size below
every defined size takes the deepest defined level. -/
def hLevelFallthrough (defined : List Nat) (m : List (Nat × Nat))
    (size : Nat) : List (Nat × Nat) :=
  if m.any (fun p => p.1 = size) then m
  else
    match defined.find? (fun dsz => dsz ≤ size + 5) with
    | some dsz =>
      match List.lookup dsz m with
      | some v => m ++ [(size, v)]
      | none => m
    | none =>
      if m.any (fun p => p.2 = 3) then m ++ [(size, 3)]
      else if m.any (fun p => p.2 = 2) then m ++ [(size, 2)]
      else if m.any (fun p => p.2 = 1) then m ++ [(size, 1)]
      else m

/-- `h_level_map` built from the descending distinct size list. -/
def hLevelMapCore (uniq : List Nat) : List (Nat × Nat) :=
  let base := hLevelBase uniq
  let defined := stableSort (fun a b : Nat => decide (a ≤ b)) (base.map Prod.fst)
  uniq.foldl (hLevelFallthrough defined) base

/-- `h_level_map` (src/main.py lines 463-497) as an association list from
size (tenths of a point) to numeric level (1 for `"H1"`, ...). -/
def hLevelMap (sizes : List Nat) : List (Nat × Nat) :=
  if sizes.isEmpty then []
  else hLevelMapCore (stableSort (fun a b : Nat => decide (b ≤ a)) (dedupFirst sizes))

/-! ### Outline assembly (src/main.py lines 500-562) -/

/-- Alphanumeric-only dedup key
(`re.sub(r'[\d\W_]+', '', text).lower()`, src/main.py line 532): keep only
letters, lowercased. -/
def dedupeKey (s : String) : List Char :=
  lowerChars (s.data.filter Char.isAlpha)

/-- Title-comparison normalization
(`re.sub(r'[^\w\s]', '', t).lower().strip()`, src/main.py lines 519-520). -/
def normForTitle (s : String) : List Char :=
  stripChars (lowerChars (s.data.filter fun c => isWordChar c || isPySpace c))

/-- The title-echo drop condition (src/main.py lines 523-527): the heading
equals the title after normalization, or one normalized text contains the
other with a length difference below 15 on the first three pages. -/
def titleEchoes (title headingText : String) (page : Nat) : Bool :=
  let nt := normForTitle title
  let nh := normForTitle headingText
  decide (nt = nh) ||
  (decide (5 < nt.length) && isInfixList nh nt &&
    decide (natDist nt.length nh.length < 15) && decide (page < 3)) ||
  (decide (5 < nh.length) && isInfixList nt nh &&
    decide (natDist nh.length nt.length < 15) && decide (page < 3))

/-- The loop state of the assembly: the `seen_headings_tracker` triples
(dedup key, page, final level), the last kept level
(`last_added_heading_level_val`, 0 when nothing was kept yet), and the
outline built so far. -/
structure AsmState where
  tracker : List (List Char × Nat × Nat)
  last : Nat
  out : List Entry

/-- One iteration of the outline-building loop (src/main.py lines 506-556):
look the heading's size up in the level map; drop title echoes; drop
duplicates whose (dedup key, page within 1, map-assigned level) matches a
tracked triple; then promote a level more than one deeper than the last kept
entry to exactly one deeper, and append. -/
def assembleStep (m : List (Nat × Nat)) (title : String) (st : AsmState)
    (h : Heading) : AsmState :=
  match List.lookup h.size m with
  | none => st
  | some lv =>
    if decide (title ≠ "") && titleEchoes title h.text h.page then st
    else if st.tracker.any (fun t =>
        decide (t.1 = dedupeKey h.text) && decide (natDist h.page t.2.1 ≤ 1) &&
        decide (lv = t.2.2)) then st
    else
      let lv' := if st.last ≠ 0 && st.last + 1 < lv then st.last + 1 else lv
      ⟨st.tracker ++ [(dedupeKey h.text, h.page, lv')], lv',
       st.out ++ [⟨lv', h.text, h.page⟩]⟩

/-- Final output order (`key=lambda x: (x["page"], int(x["level"][1]))`,
src/main.py line 562). -/
def entryLE (a b : Entry) : Bool :=
  decide (a.page < b.page) || (decide (a.page = b.page) && decide (a.level ≤ b.level))

/-- The outline before the final sort: sort the collected headings into
reading order, build the level map from their sizes, and run the assembly
loop from the empty tracker, last level 0 and empty outline. -/
def assembleRaw (hs : List Heading) (title : String) : List Entry :=
  ((stableSort headingLE hs).foldl
    (assembleStep (hLevelMap ((stableSort headingLE hs).map Heading.size)) title)
    ⟨[], 0, []⟩).out

/-- The final outline produced from the collected headings (src/main.py
lines 459-562): assembly followed by the stable sort by (page, level). -/
def assembleOutline (hs : List Heading) (title : String) : List Entry :=
  stableSort entryLE (assembleRaw hs title)

/-! ### Title resolution (src/main.py lines 285-385) -/

/-- A first-page span record as collected for title extraction
(src/main.py lines 296-302): cleaned text, size, bbox, bold flag, font. -/
structure TitleSpan where
  text : String
  size : Nat
  bbox : BBox
  isBold : Bool
  font : String
deriving DecidableEq

/-- Order of first-page spans for title grouping
(`key=lambda x: (x["bbox"][1], -x["size"])`). -/
def titleSpanLE (a b : TitleSpan) : Bool :=
  decide (a.bbox.y0 < b.bbox.y0) ||
  (decide (a.bbox.y0 = b.bbox.y0) && decide (b.size ≤ a.size))

/-- Order of collected title spans for reconstruction
(`key=lambda x: (x["bbox"][1], x["bbox"][0])`). -/
def titleSpanLE2 (a b : TitleSpan) : Bool :=
  decide (a.bbox.y0 < b.bbox.y0) ||
  (decide (a.bbox.y0 = b.bbox.y0) && decide (a.bbox.x0 ≤ b.bbox.x0))

/-- The first-page spans, flattened in block/line/span order. -/
def firstPageTitleSpans (p0 : Page) : List TitleSpan :=
  p0.blocks.foldl (fun acc b =>
    if b.btype = 0 then
      b.lines.foldl (fun acc ln =>
        ln.spans.foldl (fun acc s =>
          acc ++ [⟨cleanText s.text, s.size, s.bbox, boldFlagOfFont s.font, s.font⟩]) acc) acc
    else acc) []

/-- The span-grouping loop of the visual title extraction (src/main.py
lines 307-330): track the running maximal size; reset the group on a span
more than 0.5pt larger, extend it with vertically proximate spans at least
70% of the maximum. -/
def titleGroupStep (pageHeight : ℚ) (st : Nat × List TitleSpan)
    (s : TitleSpan) : Nat × List TitleSpan :=
  let maxSize := st.1
  let group := st.2
  if decide (3 < s.text.data.length) && !fullmatchWsDigits s.text &&
      !fullmatchSeparators s.text && !isGarbledText s.text &&
      !searchURL s.text && decide (s.bbox.y0 < pageHeight * (7/20)) then
    if maxSize + 5 < s.size then (s.size, [s])
    else if !group.isEmpty && 7 * maxSize ≤ 10 * s.size &&
        (match group.getLast? with
         | some g => decide (ratAbs (s.bbox.y0 - g.bbox.y0) < (s.size : ℚ) / 4)
         | none => false) then
      (maxSize, group ++ [s])
    else if group.isEmpty && 0 < s.size then (s.size, [s])
    else (maxSize, group)
  else (maxSize, group)

/-- The title-reconstruction loop state: pending parts of the current visual
line, last `y0`, last `x1`, and the accumulated candidate text. -/
structure TitleBuild where
  parts : List String
  lastY : ℚ
  lastX1 : ℚ
  acc : String

/-- One step of title reconstruction (src/main.py lines 341-357): a span
with a vertical jump above 1.5× its size starts a new visual line; within a
line a horizontal gap below 0.5× the size concatenates without a space. -/
def titleBuildStep (st : TitleBuild) (s : TitleSpan) : TitleBuild :=
  let next :=
    if st.parts.isEmpty || decide ((s.size : ℚ) * (3/20) < ratAbs (s.bbox.y0 - st.lastY)) then
      { st with
        acc := if st.parts.isEmpty then st.acc
               else st.acc ++ String.intercalate " " st.parts ++ "\n",
        parts := [s.text] }
    else if decide (s.bbox.x0 - st.lastX1 < (s.size : ℚ) / 20) then
      { st with parts := st.parts.dropLast ++
          [((st.parts.getLast?).getD "") ++ s.text] }
    else
      { st with parts := st.parts ++ [s.text] }
  { next with lastY := s.bbox.y0, lastX1 := s.bbox.x1 }

/-- Python `str.strip()` on a `String`. -/
def pyStrip (s : String) : String := ⟨stripChars s.data⟩

/-- The visual title candidate of the first page (src/main.py lines
286-365), already passed through `clean_text` and
`filter_title_candidate`. -/
def visualTitleCandidate (p0 : Page) (docPageCount : Nat) : String :=
  let spans := stableSort titleSpanLE (firstPageTitleSpans p0)
  let group := (spans.foldl (titleGroupStep p0.height) (0, [])).2
  if group.isEmpty then ""
  else
    let ordered := stableSort titleSpanLE2 group
    let b := ordered.foldl titleBuildStep ⟨[], -1, -1, ""⟩
    let candidate := if b.parts.isEmpty then b.acc
                     else b.acc ++ String.intercalate " " b.parts
    filterTitleCandidate (pyStrip (cleanText candidate)) docPageCount

/-- Modelled external behaviour of `page.get_text("text")` (out-of-scope
page reader): the lines of the page's text blocks, each the concatenation of
its span texts, joined by newlines. -/
def pageTextModel (p : Page) : String :=
  String.intercalate "\n"
    (p.blocks.foldl (fun acc b =>
      if b.btype = 0 then
        b.lines.foldl (fun acc ln =>
          acc ++ [String.join (ln.spans.map Span.text)]) acc
      else acc) [])

/-- Split on newlines keeping empty pieces (Python `str.split('\n')`). -/
def splitNewlines (l : List Char) : List (List Char) :=
  l.foldr (fun c acc =>
    if c = '\n' then [] :: acc
    else match acc with
      | a :: rest => (c :: a) :: rest
      | [] => [[c]]) [[]]

/-- The resolved document title (src/main.py lines 285-385): the visual
candidate, else the filtered metadata title, else the first first-page line
passing the title filters, else the empty string. -/
def resolveTitle (pages : List Page) (metaTitle : Option String) : String :=
  let visual :=
    match pages with
    | [] => ""
    | p0 :: _ => visualTitleCandidate p0 pages.length
  let title1 :=
    if visual ≠ "" then visual
    else
      match metaTitle with
      | some t =>
        if t ≠ "" then filterTitleCandidate (cleanText t) pages.length else ""
      | none => ""
  if title1 ≠ "" then title1
  else
    match pages with
    | [] => title1
    | p0 :: _ =>
      let firstPageText := pyStrip (pageTextModel p0)
      if firstPageText = "" then title1
      else
        let lines := splitNewlines firstPageText.data
        match lines.find? (fun ln =>
            (filterTitleCandidate (pyStrip (cleanText ⟨ln⟩)) pages.length) ≠ "") with
        | some ln => filterTitleCandidate (pyStrip (cleanText ⟨ln⟩)) pages.length
        | none => title1

/-! ### The whole per-document extraction (src/main.py lines 244-570) -/

/-- `extract_outline_from_pdf` on a successfully opened document, as a
function of the data the source actually reads — the pages and the metadata
title: the header/footer pre-pass, title resolution, font statistics,
heading collection, and outline assembly. -/
def extractOutlineCore (pages : List Page) (metaTitle : Option String) :
    ExtractResult :=
  let patterns := headerFooterPatterns pages
  let title := resolveTitle pages metaTitle
  let avg := avgBodyFontSize pages
  let hs := collectHeadings pages avg patterns
  ⟨title, assembleOutline hs title⟩

/-- `extract_outline_from_pdf` on a successfully opened document.  The
document's built-in bookmark list (`toc`) is part of the input the reader
exposes; the source never reads it. -/
def extractOutlineFromDoc (d : Document) : ExtractResult :=
  extractOutlineCore d.pages d.metaTitle

/-- `extract_outline_from_pdf` including its `try/except` (src/main.py
lines 251 and 566-568): a source that cannot be opened or parsed is the
`Except.error` case and yields the empty result instead of propagating. -/
def extractOutlineE (src : Except String Document) : ExtractResult :=
  match src with
  | .error _ => ⟨"", []⟩
  | .ok d => extractOutlineFromDoc d

/-- The batch driver loop of `main` (src/main.py lines 583-593): one result
per input document, independent of the other documents. -/
def processBatch (docs : List (Except String Document)) : List ExtractResult :=
  docs.map extractOutlineE

/-! ### Concrete scenarios used by counterexamples and witnesses -/

/-- A plain non-bold heading record at a given size (tenths of a point),
page and vertical position. -/
def mkHeading (t : String) (s : Nat) (p : Nat) (y : ℚ) : Heading :=
  ⟨t, s, false, p, ⟨0, y, 10, y + 1⟩, "Helv"⟩

/-- Four accepted headings with distinct sizes 20pt, 16pt, 14pt, 12pt: the
20pt one opens page 0 above a 16pt one; 14pt and 12pt follow on page 1. -/
def hierarchyGapHeadings : List Heading :=
  [mkHeading "Alpha" 200 0 0, mkHeading "Beta" 160 0 10,
   mkHeading "Gamma" 140 1 0, mkHeading "Delta" 120 1 10]

example : assembleOutline hierarchyGapHeadings "" =
    [⟨1, "Beta", 0⟩, ⟨3, "Alpha", 0⟩, ⟨2, "Gamma", 1⟩, ⟨3, "Delta", 1⟩] := by decide

/-- Five accepted headings on page 0 in which the text "Beta" occurs at
14pt (mapped level 2) and later at 12pt (mapped level 3, promoted back to 2
because the preceding 16pt heading reset the last level to 1). -/
def dedupCollisionHeadings : List Heading :=
  [mkHeading "Whale" 200 0 0, mkHeading "Xray" 160 0 10,
   mkHeading "Beta" 140 0 20, mkHeading "Yankee" 160 0 30,
   mkHeading "Beta" 120 0 40]

example : assembleOutline dedupCollisionHeadings "" =
    [⟨1, "Xray", 0⟩, ⟨1, "Yankee", 0⟩, ⟨2, "Beta", 0⟩, ⟨2, "Beta", 0⟩,
     ⟨3, "Whale", 0⟩] := by decide

example : hLevelMap [200, 160, 140, 120] =
    [(160, 1), (140, 2), (120, 3), (200, 3)] := by decide

example : assembleOutline
    [mkHeading "One" 140 0 0, mkHeading "Two" 140 1 0,
     mkHeading "Three" 140 2 0] "Doc" = [] := by decide

/-! ### Shared lemmas about the embedding -/

theorem mem_insertLE {α : Type} (le : α → α → Bool) (x y : α) (l : List α) :
    y ∈ insertLE le x l ↔ y = x ∨ y ∈ l := by
  induction l with
  | nil => simp [insertLE]
  | cons z zs ih =>
    simp only [insertLE]
    by_cases h : le x z = true
    · simp only [if_pos h, List.mem_cons]
    · simp only [if_neg h, List.mem_cons, ih]
      tauto

theorem mem_stableSort {α : Type} (le : α → α → Bool) (x : α) (l : List α) :
    x ∈ stableSort le l ↔ x ∈ l := by
  induction l with
  | nil => simp [stableSort]
  | cons z zs ih =>
    simp only [stableSort]
    rw [mem_insertLE]
    simp [ih]

/-- Every value looked up in an association list with values ≥ 1 is ≥ 1. -/
theorem lookup_pos {m : List (Nat × Nat)} (hm : ∀ p ∈ m, 1 ≤ p.2)
    {s v : Nat} (h : List.lookup s m = some v) : 1 ≤ v := by
  induction m with
  | nil => simp [List.lookup] at h
  | cons p ps ih =>
    obtain ⟨k, w⟩ := p
    simp only [List.lookup] at h
    cases hk : (s == k) with
    | true =>
      rw [hk] at h
      simp only [Option.some.injEq] at h
      subst h
      exact hm (k, w) (by simp)
    | false =>
      rw [hk] at h
      exact ih (fun q hq => hm q (List.mem_cons_of_mem _ hq)) h

/-! ### Claim C3: idempotence of the text normalizer -/

/-- C3: the claim "for every string s,
`clean_text(clean_text(s)) == clean_text(s)`" fails on the code: the
trailing page-number pass `re.sub(r'\s+\d+$', '', s)` removes only one
trailing whitespace-digit run per application, so on `"foo 12 34"` one
application yields `"foo 12"` and a second application yields `"foo"`. -/
theorem cleanText_not_idempotent :
    cleanText "foo 12 34" = "foo 12" ∧
    cleanText (cleanText "foo 12 34") = "foo" ∧
    cleanText (cleanText "foo 12 34") ≠ cleanText "foo 12 34" := by decide

/-! ### Claim C7: per-document failure handling -/

/-- C7: a document whose source cannot be opened or parsed yields
`{"title": "", "outline": []}` instead of an exception, and the batch driver
produces a result for every other document unchanged: the failed document
contributes exactly one empty record between the results of the documents
before and after it. -/
theorem failed_document_empty_and_batch_continues (e : String)
    (pre post : List (Except String Document)) :
    extractOutlineE (Except.error e) = ⟨"", []⟩ ∧
    processBatch (pre ++ Except.error e :: post) =
      processBatch pre ++ ExtractResult.mk "" [] :: processBatch post := by
  refine ⟨rfl, ?_⟩
  simp only [processBatch, List.map_append, List.map_cons]
  rfl

/-! ### Claim C4: the bookmark/table-of-contents fallback path -/

/-- Modelled from the spec (§4.8 fallback path): the verbatim outline a
bookmark structure would yield, levels mapped 1→H1, 2→H2, 3→H3, 4+→H4. -/
def tocVerbatimOutline (toc : List TocEntry) : List Entry :=
  toc.map fun t => ⟨min t.level 4, t.text, t.page⟩

/-- Modelled from the spec (§4.8 fallback path): a bookmark entry usable
after acceptance filtering — length bounds, not numeric-only, not echoing
the title. -/
def tocUsable (title : String) (t : TocEntry) : Bool :=
  3 ≤ t.text.data.length && !fullmatchWsDigits t.text &&
    !(decide (normForTitle t.text = normForTitle title))

/-- A document whose reader exposes a two-entry bookmark structure and no
page content. -/
def tocOnlyDoc : Document :=
  ⟨[], none, [⟨1, "Alpha", 1⟩, ⟨1, "Beta", 2⟩]⟩

/-- C4 counterexample: `tocOnlyDoc` exposes a bookmark structure with more
than one usable entry, yet the extraction does not return that structure
verbatim — it returns the empty heuristic outline, because the source never
reads the bookmark structure at all. -/
example : headerFooterPatterns tocOnlyDoc.pages = [] := by decide
example : resolveTitle tocOnlyDoc.pages tocOnlyDoc.metaTitle = "" := by decide
example : avgBodyFontSize tocOnlyDoc.pages = 0 := by decide
example : collectHeadings tocOnlyDoc.pages 0 [] = [] := by decide
example : tocVerbatimOutline tocOnlyDoc.toc =
    [⟨1, "Alpha", 1⟩, ⟨1, "Beta", 2⟩] := by decide
example : ((tocOnlyDoc.toc).filter (tocUsable "")).length = 2 := by decide

theorem bookmark_fallback_counterexample :
    1 < ((tocOnlyDoc.toc).filter
        (tocUsable (extractOutlineFromDoc tocOnlyDoc).title)).length ∧
    extractOutlineFromDoc tocOnlyDoc = ⟨"", []⟩ ∧
    (extractOutlineFromDoc tocOnlyDoc).outline ≠
      tocVerbatimOutline tocOnlyDoc.toc := by decide

/-- C4 amended: the extraction result never depends on the bookmark
structure the reader exposes — the heuristic path runs unconditionally. -/
theorem outline_ignores_bookmarks (pages : List Page) (mt : Option String)
    (t₁ t₂ : List TocEntry) :
    extractOutlineFromDoc ⟨pages, mt, t₁⟩ = extractOutlineFromDoc ⟨pages, mt, t₂⟩ :=
  rfl

/-! ### Claim C6: the line reconstructor's merge conditions -/

/-- A 10pt fragment at the left edge of a row. -/
def gapSpan1 : Span := ⟨"foo", 100, "Helv", ⟨0, 0, 10, 10⟩⟩

/-- A 30pt fragment 190 units to the right and 50 units below. -/
def gapSpan2 : Span := ⟨"bar", 300, "Helv", ⟨200, 50, 210, 60⟩⟩

/-- C6 counterexample: the claim says two adjacent fragments merge iff the
gap is below ≈5 units, the sizes and style flags match, and the vertical
displacement is below ≈1 unit.  The code merges `gapSpan1` and `gapSpan2`
into the single line `"foo bar"` although every one of those conditions
fails (gap 190, sizes 10pt vs 30pt, vertical displacement 50). -/
theorem line_merge_condition_counterexample :
    specMergeCond gapSpan1 gapSpan2 = false ∧
    reconstructRow [gapSpan1, gapSpan2] =
      some ⟨"foo bar", "foo bar", 100, false, ⟨0, 0, 210, 60⟩, "Helv"⟩ := by
  constructor
  · simp [specMergeCond, gapSpan1, gapSpan2]
  · decide

theorem text_infix_joinSpace (l : List Span) (s : Span) (hs : s ∈ l) :
    List.IsInfix s.text.data (joinSpaceTexts l).data := by
  induction l with
  | nil => cases hs
  | cons x tail ih =>
    cases tail with
    | nil =>
      have hx : s = x := by simpa using hs
      subst hx
      exact List.infix_rfl
    | cons y rest =>
      rcases List.mem_cons.mp hs with h | h
      · subst h
        show List.IsInfix s.text.data (s.text ++ " " ++ joinSpaceTexts (y :: rest)).data
        rw [String.data_append, String.data_append]
        exact ((List.prefix_append s.text.data _).trans
          (by rw [List.append_assoc])).isInfix
      · have h' := ih h
        show List.IsInfix s.text.data (x.text ++ " " ++ joinSpaceTexts (y :: rest)).data
        rw [String.data_append, String.data_append]
        exact h'.trans (List.suffix_append _ _).isInfix

/-- C6 amended: the row reconstruction sorts a row's fragments by horizontal
position and joins all of them into one logical line unconditionally — every
fragment's text occurs inside the single reconstructed line's text no matter
how large the horizontal gap, size difference, style difference or vertical
displacement between fragments is. -/
theorem row_fragments_all_merged (spans : List Span) (row : RowLine)
    (s : Span) (hrow : reconstructRow spans = some row) (hs : s ∈ spans) :
    List.IsInfix s.text.data row.text.data := by
  have hs' : s ∈ stableSort spanLE spans := (mem_stableSort _ _ _).mpr hs
  simp only [reconstructRow] at hrow
  split at hrow
  · exact absurd hrow (by simp)
  · split at hrow
    · exact absurd hrow (by simp)
    · rename_i hne hng
      revert hrow hs'
      cases hsort : stableSort spanLE spans with
      | nil => intro hmem hrow; cases hmem
      | cons s0 rest =>
        intro hmem hrow
        have hr := Option.some.inj hrow
        subst hr
        exact text_infix_joinSpace (s0 :: rest) s hmem

/-- C6 witness for `row_fragments_all_merged` at the concrete row: the 30pt
fragment's text is contained in the merged line. -/
theorem row_fragments_all_merged_witness :
    List.IsInfix ("bar".data) ("foo bar".data) :=
  row_fragments_all_merged [gapSpan1, gapSpan2]
    ⟨"foo bar", "foo bar", 100, false, ⟨0, 0, 210, 60⟩, "Helv"⟩ gapSpan2
    (by decide) (by decide)

/-! ### Claim C2: monotonicity of the heading level map -/

/-- C2 counterexample: for accepted-heading sizes 20pt, 16pt, 14pt, 12pt the
level map assigns the largest size 20pt the deepest level H3 while the
smaller 16pt gets H1 — the map neither starts from the largest size nor
preserves size ordering. -/
theorem level_map_counterexample :
    List.lookup 200 (hLevelMap [200, 160, 140, 120]) = some 3 ∧
    List.lookup 160 (hLevelMap [200, 160, 140, 120]) = some 1 ∧
    (160 : Nat) < 200 ∧ (1 : Nat) < 3 := by decide

/-- C2 amended: with at least four distinct accepted sizes `a > b > c > d`,
the level map assigns the sizes following the skipped largest one, in
descending order, to H1, H2, H3, and the largest size `a` falls through to
the deepest defined level H3 (the fallthrough scans defined sizes ascending
and `a` exceeds the smallest defined size), so larger sizes can receive
strictly deeper levels. -/
theorem insertLE_skip {α : Type} (le : α → α → Bool) (x y : α) (l : List α)
    (h : le x y = false) : insertLE le x (y :: l) = y :: insertLE le x l := by
  rw [insertLE, if_neg (by rw [h]; exact Bool.false_ne_true)]

theorem hLevelFallthrough_skip (defined : List Nat) (m : List (Nat × Nat))
    (size : Nat) (h : (m.any fun p => decide (p.1 = size)) = true) :
    hLevelFallthrough defined m size = m := by
  rw [hLevelFallthrough, if_pos h]

theorem hLevelFallthrough_assign (defined : List Nat) (m : List (Nat × Nat))
    (size dsz v : Nat)
    (h0 : (m.any fun p => decide (p.1 = size)) = false)
    (h1 : defined.find? (fun dsz => decide (dsz ≤ size + 5)) = some dsz)
    (h2 : List.lookup dsz m = some v) :
    hLevelFallthrough defined m size = m ++ [(size, v)] := by
  rw [hLevelFallthrough, if_neg (by rw [h0]; exact Bool.false_ne_true), h1]
  dsimp only
  rw [h2]

theorem level_map_skips_largest (sizes : List Nat) (a b c d : Nat)
    (hne : sizes ≠ [])
    (huniq : stableSort (fun x y : Nat => decide (y ≤ x)) (dedupFirst sizes) =
      [a, b, c, d])
    (hab : b < a) (hbc : c < b) (hcd : d < c) :
    hLevelMap sizes = [(b, 1), (c, 2), (d, 3), (a, 3)] := by
  have hemp : sizes.isEmpty = false := by
    cases sizes with
    | nil => exact absurd rfl hne
    | cons x xs => rfl
  have hstart : hLevelMap sizes = hLevelMapCore [a, b, c, d] := by
    rw [hLevelMap, hemp, huniq]
    rfl
  rw [hstart]
  have h1 : ¬ (c : Nat) ≤ d := by omega
  have h2 : ¬ (b : Nat) ≤ d := by omega
  have h3 : ¬ (b : Nat) ≤ c := by omega
  have hdef : stableSort (fun x y : Nat => decide (x ≤ y)) [b, c, d] = [d, c, b] := by
    show insertLE _ b (insertLE _ c (insertLE _ d (stableSort _ []))) = _
    rw [show stableSort (fun x y : Nat => decide (x ≤ y)) [] = [] from rfl]
    rw [show insertLE (fun x y : Nat => decide (x ≤ y)) d [] = [d] from rfl]
    rw [insertLE_skip _ c d [] (by simp [h1])]
    rw [show insertLE (fun x y : Nat => decide (x ≤ y)) c [] = [c] from rfl]
    rw [insertLE_skip _ b d [c] (by simp [h2])]
    rw [insertLE_skip _ b c [] (by simp [h3])]
    rw [show insertLE (fun x y : Nat => decide (x ≤ y)) b [] = [b] from rfl]
  have hcore : hLevelMapCore [a, b, c, d] =
      List.foldl (hLevelFallthrough [d, c, b]) [(b, 1), (c, 2), (d, 3)]
        [a, b, c, d] := by
    rw [hLevelMapCore]
    dsimp only [hLevelBase, List.map_cons, List.map_nil]
    rw [hdef]
  rw [hcore]
  simp only [List.foldl_cons, List.foldl_nil]
  have nba : (b = a) = False := by simp; omega
  have nca : (c = a) = False := by simp; omega
  have nda : (d = a) = False := by simp; omega
  have ndb : (d = b) = False := by simp; omega
  have ndc : (d = c) = False := by simp; omega
  rw [hLevelFallthrough_assign [d, c, b] [(b, 1), (c, 2), (d, 3)] a d 3
    (by simp [nba, nca, nda])
    (by simp only [List.find?]; rw [decide_eq_true (by omega : d ≤ a + 5)])
    (by simp only [List.lookup]
        rw [show (d == b) = false by simp; omega,
            show (d == c) = false by simp; omega, beq_self_eq_true])]
  rw [hLevelFallthrough_skip _ _ b (by simp)]
  rw [hLevelFallthrough_skip _ _ c (by simp)]
  rw [hLevelFallthrough_skip _ _ d (by simp)]
  rfl

/-- C2 witness for `level_map_skips_largest` at sizes 20pt, 16pt, 14pt,
12pt. -/
theorem level_map_skips_largest_witness :
    hLevelMap [200, 160, 140, 120] = [(160, 1), (140, 2), (120, 3), (200, 3)] :=
  level_map_skips_largest [200, 160, 140, 120] 200 160 140 120 (by decide)
    (by decide) (by decide) (by decide) (by decide)

/-! ### Claim C9: a single distinct accepted size yields an empty outline -/

theorem dedupFirst_foldl_absorb (s : Nat) :
    ∀ l : List Nat, (∀ x ∈ l, x = s) →
      l.foldl (fun acc x => if x ∈ acc then acc else acc ++ [x]) [s] = [s] := by
  intro l
  induction l with
  | nil => intro _; rfl
  | cons x xs ih =>
    intro hall
    have hx : x = s := hall x (by simp)
    subst hx
    simp only [List.foldl_cons, List.mem_singleton, if_pos rfl]
    exact ih fun y hy => hall y (List.mem_cons_of_mem _ hy)

theorem dedupFirst_all_eq (s : Nat) (l : List Nat) (hall : ∀ x ∈ l, x = s)
    (hne : l ≠ []) : dedupFirst l = [s] := by
  cases l with
  | nil => exact absurd rfl hne
  | cons x xs =>
    have hx : x = s := hall x (by simp)
    subst hx
    show xs.foldl (fun acc x => if x ∈ acc then acc else acc ++ [x]) [x] = [x]
    exact dedupFirst_foldl_absorb x xs fun y hy => hall y (List.mem_cons_of_mem _ hy)

theorem single_size_level_map (sizes : List Nat) (s : Nat)
    (hall : ∀ x ∈ sizes, x = s) : hLevelMap sizes = [] := by
  cases hs : sizes with
  | nil => rfl
  | cons x xs =>
    subst hs
    have hd : dedupFirst (x :: xs) = [s] :=
      dedupFirst_all_eq s _ hall (by simp)
    show hLevelMapCore
      (stableSort (fun a b : Nat => decide (b ≤ a)) (dedupFirst (x :: xs))) = []
    rw [hd]
    rfl

theorem foldl_assembleStep_empty_map (title : String) :
    ∀ (l : List Heading) (st : AsmState),
      List.foldl (assembleStep [] title) st l = st := by
  intro l
  induction l with
  | nil => intro st; rfl
  | cons h t ih =>
    intro st
    rw [List.foldl_cons]
    rw [show assembleStep [] title st h = st from rfl]
    exact ih st

/-- C9: when every accepted heading shares one rounded font size, the level
map stays empty (the single largest size is skipped and nothing else can be
assigned), and the final outline is empty no matter how many headings were
accepted. -/
theorem single_size_empty_outline (hs : List Heading) (title : String)
    (s₀ : Nat) (hall : ∀ h ∈ hs, h.size = s₀) :
    hLevelMap ((stableSort headingLE hs).map Heading.size) = [] ∧
    assembleOutline hs title = [] := by
  have hsz : ∀ x ∈ (stableSort headingLE hs).map Heading.size, x = s₀ := by
    intro x hx
    rcases List.mem_map.mp hx with ⟨h, hh, rfl⟩
    exact hall h ((mem_stableSort _ _ _).mp hh)
  have hmap := single_size_level_map _ s₀ hsz
  refine ⟨hmap, ?_⟩
  rw [assembleOutline, assembleRaw, hmap, foldl_assembleStep_empty_map]
  rfl

/-- C9 witness for `single_size_empty_outline`: three accepted 14pt headings
on three pages still produce the empty map and the empty outline. -/
theorem single_size_empty_outline_witness :
    hLevelMap ((stableSort headingLE
      [mkHeading "One" 140 0 0, mkHeading "Two" 140 1 0,
       mkHeading "Three" 140 2 0]).map Heading.size) = [] ∧
    assembleOutline
      [mkHeading "One" 140 0 0, mkHeading "Two" 140 1 0,
       mkHeading "Three" 140 2 0] "Doc" = [] :=
  single_size_empty_outline _ "Doc" 140 (by decide)

/-! ### Claim C8: title exclusion from the outline -/

theorem assembleStep_titleEcho_preserved (m : List (Nat × Nat))
    (title : String) (st : AsmState) (h : Heading) (ht : title ≠ "")
    (hinv : ∀ e ∈ st.out, titleEchoes title e.text e.page = false) :
    ∀ e ∈ (assembleStep m title st h).out,
      titleEchoes title e.text e.page = false := by
  rw [assembleStep]
  cases List.lookup h.size m with
  | none => exact hinv
  | some lv =>
    dsimp only
    by_cases hA : (decide (title ≠ "") && titleEchoes title h.text h.page) = true
    · rw [if_pos hA]
      exact hinv
    · rw [if_neg hA]
      have hecho : titleEchoes title h.text h.page = false := by
        rcases Bool.and_eq_false_iff.mp (Bool.eq_false_iff.mpr hA) with hd | he
        · exact absurd hd (by simp [decide_eq_true ht])
        · exact he
      by_cases hB : (st.tracker.any fun t =>
          decide (t.1 = dedupeKey h.text) && decide (natDist h.page t.2.1 ≤ 1) &&
          decide (lv = t.2.2)) = true
      · rw [if_pos hB]
        exact hinv
      · rw [if_neg hB]
        intro e he
        rcases List.mem_append.mp he with h1 | h2
        · exact hinv e h1
        · have : e = ⟨if st.last ≠ 0 && st.last + 1 < lv then st.last + 1 else lv,
              h.text, h.page⟩ := by simpa using h2
          subst this
          exact hecho

theorem foldl_assembleStep_titleEcho (m : List (Nat × Nat)) (title : String)
    (ht : title ≠ "") :
    ∀ (l : List Heading) (st : AsmState),
      (∀ e ∈ st.out, titleEchoes title e.text e.page = false) →
      ∀ e ∈ (List.foldl (assembleStep m title) st l).out,
        titleEchoes title e.text e.page = false := by
  intro l
  induction l with
  | nil => intro st hinv; exact hinv
  | cons h t ih =>
    intro st hinv
    rw [List.foldl_cons]
    exact ih _ (assembleStep_titleEcho_preserved m title st h ht hinv)

/-- C8: for a non-empty resolved title, no kept outline entry echoes the
title: the entry fails the whole title-echo condition (so in particular its
normalized text differs from the normalized title, and it is not contained
in nor contains the title within the length tolerance on the first three
pages). -/
theorem title_excluded_from_outline (hs : List Heading) (title : String)
    (ht : title ≠ "") :
    ∀ e ∈ assembleOutline hs title,
      titleEchoes title e.text e.page = false ∧
      normForTitle e.text ≠ normForTitle title := by
  intro e he
  have he' : e ∈ assembleRaw hs title := (mem_stableSort _ _ _).mp he
  have hecho : titleEchoes title e.text e.page = false := by
    rw [assembleRaw] at he'
    exact foldl_assembleStep_titleEcho _ title ht _ ⟨[], 0, []⟩
      (by intro x hx; cases hx) e he'
  refine ⟨hecho, ?_⟩
  intro hEq
  have htrue : titleEchoes title e.text e.page = true := by
    rw [titleEchoes]
    rw [hEq]
    simp
  rw [htrue] at hecho
  cases hecho

/-- C8 witness for `title_excluded_from_outline`: with title
`"Document Title"` the kept entry `"Intro"` fails every echo condition. -/
theorem title_excluded_from_outline_witness :
    titleEchoes "Document Title" (Entry.text ⟨1, "Intro", 0⟩)
      (Entry.page ⟨1, "Intro", 0⟩) = false ∧
    normForTitle (Entry.text ⟨1, "Intro", 0⟩) ≠ normForTitle "Document Title" :=
  title_excluded_from_outline
    [mkHeading "Intro" 200 0 0, mkHeading "Overview" 160 0 10]
    "Document Title" (by decide) ⟨1, "Intro", 0⟩ (by decide)

/-! ### Claims C5 and C10: deduplication -/

/-- Shared helper: a candidate whose dedup key, page (within 1) and
map-assigned level match a tracked triple leaves the assembly state
unchanged (the candidate is dropped, whatever the title check would say). -/
theorem assembleStep_drop_of_tracked (m : List (Nat × Nat)) (title : String)
    (st : AsmState) (h : Heading) (lv p l : Nat)
    (hlv : List.lookup h.size m = some lv)
    (hmem : (dedupeKey h.text, p, l) ∈ st.tracker)
    (hpage : natDist h.page p ≤ 1) (hlev : lv = l) :
    assembleStep m title st h = st := by
  have hany : (st.tracker.any fun t =>
      decide (t.1 = dedupeKey h.text) && decide (natDist h.page t.2.1 ≤ 1) &&
      decide (lv = t.2.2)) = true := by
    rw [List.any_eq_true]
    refine ⟨(dedupeKey h.text, p, l), hmem, ?_⟩
    simp [hpage, hlev]
  rw [assembleStep, hlv]
  dsimp only
  by_cases hA : (decide (title ≠ "") && titleEchoes title h.text h.page) = true
  · rw [if_pos hA]
  · rw [if_neg hA, if_pos hany]

/-- C5 counterexample: in the assembled outline of
`dedupCollisionHeadings` (empty title) the text `"Beta"` is kept twice at
the same final level H2 on the same page — the no-duplicate invariant over
(normalized text, level, page within 1) fails, because the duplicate check
compares the candidate's pre-promotion level with recorded post-promotion
levels. -/
theorem dedup_invariant_counterexample :
    assembleOutline dedupCollisionHeadings "" =
      [⟨1, "Xray", 0⟩, ⟨1, "Yankee", 0⟩, ⟨2, "Beta", 0⟩, ⟨2, "Beta", 0⟩,
       ⟨3, "Whale", 0⟩] ∧
    ¬ (assembleOutline dedupCollisionHeadings "").Pairwise (fun e1 e2 =>
        ¬(dedupeKey e1.text = dedupeKey e2.text ∧ e1.level = e2.level ∧
          natDist e1.page e2.page ≤ 1)) := by
  constructor
  · decide
  · intro hp
    rw [show assembleOutline dedupCollisionHeadings "" =
        [⟨1, "Xray", 0⟩, ⟨1, "Yankee", 0⟩, ⟨2, "Beta", 0⟩, ⟨2, "Beta", 0⟩,
         ⟨3, "Whale", 0⟩] from by decide] at hp
    rcases List.pairwise_cons.mp hp with ⟨_, hp1⟩
    rcases List.pairwise_cons.mp hp1 with ⟨_, hp2⟩
    rcases List.pairwise_cons.mp hp2 with ⟨hrel, _⟩
    exact hrel ⟨2, "Beta", 0⟩ (by simp) ⟨rfl, rfl, by decide⟩

/-- C5 amended: the duplicate check drops a candidate exactly against the
tracked triples of previously kept entries, comparing the candidate's
map-assigned (pre-promotion) level with the recorded (post-promotion)
levels: a candidate whose (alphanumeric-only normalized text, page within 1,
map level) matches a tracked triple is dropped and the state is unchanged.
Because promotion can later retarget a kept level, the global
no-duplicate invariant over final levels does not follow (see the
counterexample). -/
theorem dedup_drop_matching_candidate (m : List (Nat × Nat)) (title : String)
    (st : AsmState) (h : Heading) (lv p l : Nat)
    (hlv : List.lookup h.size m = some lv)
    (hmem : (dedupeKey h.text, p, l) ∈ st.tracker)
    (hpage : natDist h.page p ≤ 1) (hlev : lv = l) :
    assembleStep m title st h = st :=
  assembleStep_drop_of_tracked m title st h lv p l hlv hmem hpage hlev

/-- C5 witness for `dedup_drop_matching_candidate`: a tracked
`("beta", page 0, level 2)` drops the level-2 candidate `"Beta"` on
page 1. -/
theorem dedup_drop_matching_candidate_witness :
    assembleStep [(120, 2)] ""
      ⟨[(['b', 'e', 't', 'a'], 0, 2)], 2, [⟨2, "Beta", 0⟩]⟩
      (mkHeading "Beta" 120 1 0) =
      ⟨[(['b', 'e', 't', 'a'], 0, 2)], 2, [⟨2, "Beta", 0⟩]⟩ :=
  dedup_drop_matching_candidate [(120, 2)] ""
    ⟨[(['b', 'e', 't', 'a'], 0, 2)], 2, [⟨2, "Beta", 0⟩]⟩
    (mkHeading "Beta" 120 1 0) 2 0 2 (by decide) (by decide) (by decide) rfl

/-- Letters are not digits, so the alphanumeric-only dedup key ignores every
digit character: texts equal after erasing digits have equal dedup keys. -/
theorem dedupeKey_ignores_digits (t1 t2 : String)
    (h : t1.data.filter (fun c => !c.isDigit) =
         t2.data.filter (fun c => !c.isDigit)) :
    dedupeKey t1 = dedupeKey t2 := by
  have key : ∀ l : List Char,
      l.filter Char.isAlpha = (l.filter (fun c => !c.isDigit)).filter Char.isAlpha := by
    intro l
    rw [List.filter_filter]
    apply List.filter_congr
    intro c _
    by_cases hc : c.isAlpha = true
    · have hc' : (65 ≤ c.val ∧ c.val ≤ 90) ∨ (97 ≤ c.val ∧ c.val ≤ 122) := by
        simpa [Char.isAlpha, Char.isUpper, Char.isLower, Bool.or_eq_true,
          Bool.and_eq_true, decide_eq_true_eq, ge_iff_le] using hc
      have h9 : ¬ c.val ≤ 57 := by
        rcases hc' with ⟨h1, _⟩ | ⟨h1, _⟩
        · exact fun hle => absurd (UInt32.le_trans h1 hle)
            (by decide : ¬ ((65 : UInt32) ≤ 57))
        · exact fun hle => absurd (UInt32.le_trans h1 hle)
            (by decide : ¬ ((97 : UInt32) ≤ 57))
      have hd : c.isDigit = false := by
        rw [Char.isDigit]
        rw [decide_eq_false h9, Bool.and_false]
      simp [hc, hd]
    · simp [Bool.eq_false_iff.mpr hc]
  rw [dedupeKey, dedupeKey, key t1.data, key t2.data, h]

/-- C10: a candidate whose text differs from a previously kept entry's text
only in digit characters, whose map-assigned level equals the recorded
level, and whose page is within 1, is dropped as a duplicate — the dedup key
strips digits (and all punctuation), so "Chapter 1"-style numbering cannot
distinguish headings. -/
theorem digit_only_difference_is_duplicate (m : List (Nat × Nat))
    (title : String) (st : AsmState) (h : Heading) (t' : String) (lv p l : Nat)
    (hdiff : h.text.data.filter (fun c => !c.isDigit) =
             t'.data.filter (fun c => !c.isDigit))
    (hlv : List.lookup h.size m = some lv)
    (hmem : (dedupeKey t', p, l) ∈ st.tracker)
    (hpage : natDist h.page p ≤ 1) (hlev : lv = l) :
    assembleStep m title st h = st := by
  have hkey : dedupeKey h.text = dedupeKey t' := dedupeKey_ignores_digits _ _ hdiff
  exact assembleStep_drop_of_tracked m title st h lv p l hlv
    (hkey ▸ hmem) hpage hlev

/-- C10 witness for `digit_only_difference_is_duplicate`: with
`"Chapter 12"` tracked as `("chapter", page 0, level 1)`, the candidate
`"Chapter 3"` at map level 1 on page 1 is dropped. -/
theorem digit_only_difference_is_duplicate_witness :
    assembleStep [(160, 1)] ""
      ⟨[(['c', 'h', 'a', 'p', 't', 'e', 'r'], 0, 1)], 1, [⟨1, "Chapter 12", 0⟩]⟩
      (mkHeading "Chapter 3" 160 1 0) =
      ⟨[(['c', 'h', 'a', 'p', 't', 'e', 'r'], 0, 1)], 1, [⟨1, "Chapter 12", 0⟩]⟩ :=
  digit_only_difference_is_duplicate [(160, 1)] ""
    ⟨[(['c', 'h', 'a', 'p', 't', 'e', 'r'], 0, 1)], 1, [⟨1, "Chapter 12", 0⟩]⟩
    (mkHeading "Chapter 3" 160 1 0) "Chapter 12" 1 0 1
    (by decide) (by decide) (by decide) (by decide) rfl

/-! ### Claim C1: the adjacent hierarchy-gap bound -/

/-- The adjacent-gap relation of the claim: the later entry is at most one
level deeper than the earlier one. -/
def gapOK (e1 e2 : Entry) : Prop := e2.level ≤ e1.level + 1

theorem hLevelBase_values_pos (u : List Nat) : ∀ p ∈ hLevelBase u, 1 ≤ p.2 := by
  intro p hp
  rcases u with _ | ⟨a, _ | ⟨b, _ | ⟨c, _ | ⟨d, rest⟩⟩⟩⟩
  · cases hp
  · cases hp
  · rcases (by simpa [hLevelBase] using hp : p = (b, 1)) with rfl
    exact le_refl 1
  · rcases (by simpa [hLevelBase] using hp : p = (b, 1) ∨ p = (c, 2)) with rfl | rfl
    · exact le_refl 1
    · omega
  · rcases (by simpa [hLevelBase] using hp :
        p = (b, 1) ∨ p = (c, 2) ∨ p = (d, 3)) with rfl | rfl | rfl
    · exact le_refl 1
    · omega
    · omega

theorem hLevelFallthrough_values_pos (defined : List Nat)
    (m : List (Nat × Nat)) (size : Nat) (hm : ∀ p ∈ m, 1 ≤ p.2) :
    ∀ q ∈ hLevelFallthrough defined m size, 1 ≤ q.2 := by
  rw [hLevelFallthrough]
  by_cases h0 : (m.any fun p => decide (p.1 = size)) = true
  · rw [if_pos h0]; exact hm
  · rw [if_neg h0]
    cases hf : defined.find? (fun dsz => decide (dsz ≤ size + 5)) with
    | some dsz =>
      show ∀ q ∈ (match List.lookup dsz m with
        | some v => m ++ [(size, v)]
        | none => m), 1 ≤ q.2
      cases hl : List.lookup dsz m with
      | some v =>
        intro q hq
        rcases List.mem_append.mp hq with h | h
        · exact hm q h
        · rcases (by simpa using h : q = (size, v)) with rfl
          exact lookup_pos hm hl
      | none => exact hm
    | none =>
      show ∀ q ∈ (if (m.any fun p => decide (p.2 = 3)) = true then m ++ [(size, 3)]
        else if (m.any fun p => decide (p.2 = 2)) = true then m ++ [(size, 2)]
        else if (m.any fun p => decide (p.2 = 1)) = true then m ++ [(size, 1)]
        else m), 1 ≤ q.2
      intro q hq
      split at hq
      · rcases List.mem_append.mp hq with h | h
        · exact hm q h
        · rcases (by simpa using h : q = (size, 3)) with rfl; omega
      · split at hq
        · rcases List.mem_append.mp hq with h | h
          · exact hm q h
          · rcases (by simpa using h : q = (size, 2)) with rfl; omega
        · split at hq
          · rcases List.mem_append.mp hq with h | h
            · exact hm q h
            · rcases (by simpa using h : q = (size, 1)) with rfl; omega
          · exact hm q hq

theorem foldl_fallthrough_values_pos (defined : List Nat) :
    ∀ (l : List Nat) (m : List (Nat × Nat)), (∀ p ∈ m, 1 ≤ p.2) →
      ∀ q ∈ List.foldl (hLevelFallthrough defined) m l, 1 ≤ q.2 := by
  intro l
  induction l with
  | nil => intro m hm; exact hm
  | cons x xs ih =>
    intro m hm
    rw [List.foldl_cons]
    exact ih _ (hLevelFallthrough_values_pos defined m x hm)

theorem hLevelMap_values_pos (sizes : List Nat) :
    ∀ p ∈ hLevelMap sizes, 1 ≤ p.2 := by
  rw [hLevelMap]
  by_cases he : sizes.isEmpty = true
  · rw [if_pos he]; intro p hp; cases hp
  · rw [if_neg he]
    rw [hLevelMapCore]
    exact foldl_fallthrough_values_pos _ _ _ (hLevelBase_values_pos _)

/-- The loop invariant of the assembly: the outline built so far satisfies
the adjacent-gap bound, and `last` is the level of the last kept entry
(0 while nothing was kept). -/
def AsmInv (st : AsmState) : Prop :=
  List.Chain' gapOK st.out ∧
  ((st.out = [] ∧ st.last = 0) ∨
   (∃ e, st.out.getLast? = some e ∧ st.last = e.level ∧ 1 ≤ e.level))

theorem assembleStep_inv (m : List (Nat × Nat)) (title : String)
    (hm : ∀ p ∈ m, 1 ≤ p.2) (st : AsmState) (h : Heading)
    (hst : AsmInv st) : AsmInv (assembleStep m title st h) := by
  rw [assembleStep]
  cases hlv : List.lookup h.size m with
  | none => exact hst
  | some lv =>
    dsimp only
    have hlv1 : 1 ≤ lv := lookup_pos hm hlv
    by_cases hA : (decide (title ≠ "") && titleEchoes title h.text h.page) = true
    · rw [if_pos hA]; exact hst
    · rw [if_neg hA]
      by_cases hB : (st.tracker.any fun t =>
          decide (t.1 = dedupeKey h.text) && decide (natDist h.page t.2.1 ≤ 1) &&
          decide (lv = t.2.2)) = true
      · rw [if_pos hB]; exact hst
      · rw [if_neg hB]
        show AsmInv ⟨st.tracker ++ [(dedupeKey h.text, h.page,
            if st.last ≠ 0 && st.last + 1 < lv then st.last + 1 else lv)],
          if st.last ≠ 0 && st.last + 1 < lv then st.last + 1 else lv,
          st.out ++ [⟨if st.last ≠ 0 && st.last + 1 < lv then st.last + 1 else lv,
            h.text, h.page⟩]⟩
        have hl1 : 1 ≤ (if st.last ≠ 0 && st.last + 1 < lv then st.last + 1 else lv) := by
          split
          · omega
          · exact hlv1
        constructor
        · apply List.Chain'.append hst.1 (List.chain'_singleton _)
          intro x hx y hy
          rcases (by simpa using hy :
            Entry.mk (if st.last ≠ 0 && st.last + 1 < lv then st.last + 1 else lv)
              h.text h.page = y) with rfl
          rcases hst.2 with ⟨hout, _⟩ | ⟨e, hgl, hlaste, hpos⟩
          · rw [hout] at hx; cases hx
          · rcases (by rw [hgl] at hx; simpa using hx : e = x) with rfl
            show (if st.last ≠ 0 && st.last + 1 < lv then st.last + 1 else lv) ≤ e.level + 1
            split
            · omega
            · rename_i hcond
              have hnl : ¬ (st.last + 1 < lv) := fun hlt => hcond (by
                have h0 : st.last ≠ 0 := by omega
                simp [h0, hlt])
              omega
        · right
          exact ⟨⟨if st.last ≠ 0 && st.last + 1 < lv then st.last + 1 else lv,
            h.text, h.page⟩, List.getLast?_concat _, rfl, hl1⟩

theorem foldl_assembleStep_inv (m : List (Nat × Nat)) (title : String)
    (hm : ∀ p ∈ m, 1 ≤ p.2) :
    ∀ (l : List Heading) (st : AsmState), AsmInv st →
      AsmInv (List.foldl (assembleStep m title) st l) := by
  intro l
  induction l with
  | nil => intro st hst; exact hst
  | cons h t ih =>
    intro st hst
    rw [List.foldl_cons]
    exact ih _ (assembleStep_inv m title hm st h hst)

/-- C1 amended: in assembly order — the outline as built by the loop,
before the final sort by (page, level) — every adjacent pair satisfies the
gap bound: each kept entry is at most one level deeper than the previously
kept entry, enforced by promoting a too-deep entry to exactly one level
deeper than the last kept entry (never by dropping it).  The final sort can
reorder entries of a page and break this bound in the returned sequence
(see the counterexample). -/
theorem assembly_order_gap_bound (hs : List Heading) (title : String) :
    List.Chain' gapOK (assembleRaw hs title) :=
  (foldl_assembleStep_inv _ title (hLevelMap_values_pos _)
    (stableSort headingLE hs) ⟨[], 0, []⟩
    ⟨List.chain'_nil, Or.inl ⟨rfl, rfl⟩⟩).1

/-- C1 counterexample: the final outline of `hierarchyGapHeadings` (the
sequence returned by the extraction, after the sort by page then level) has
the adjacent pair (H1 "Beta", H3 "Alpha") on page 0 — the later entry is two
levels deeper, so the claimed invariant fails on the returned sequence. -/
theorem hierarchy_gap_counterexample :
    assembleOutline hierarchyGapHeadings "" =
      [⟨1, "Beta", 0⟩, ⟨3, "Alpha", 0⟩, ⟨2, "Gamma", 1⟩, ⟨3, "Delta", 1⟩] ∧
    ¬ List.Chain' gapOK (assembleOutline hierarchyGapHeadings "") := by
  constructor
  · decide
  · intro hch
    rw [show assembleOutline hierarchyGapHeadings "" =
        [⟨1, "Beta", 0⟩, ⟨3, "Alpha", 0⟩, ⟨2, "Gamma", 1⟩, ⟨3, "Delta", 1⟩]
      from by decide] at hch
    rcases List.chain'_cons.mp hch with ⟨hrel, _⟩
    simp [gapOK] at hrel

end PdfOutline
